import Mathlib

/-!
# Verification of the jira-summarizer issue aggregation engine

Shallow embedding of the Go sources of `canonical/jira-summarizer`:
the issue tree data model (`internal/jira/issues.go`), the recency filter
`KeptRecentEvents`, the status-history resolution `fetchStatusUpdate`, the
issue builder `newIssueFromJsonIssue` / `fetchChildren`, the assembly
drivers `getIssuesByJQL` (both the slice-returning and the streaming
`iter.Seq2` variant of `internal/jira/jira.go`), and the grouping /
filtering stages `collect` and `filterEvents` of `actions.go`.

Modelling conventions:
* `time.Time` is modelled as `Int` (a point on a totally ordered time
  line); the Go zero `time.Time` is modelled as `0` and real timestamps
  are positive, which preserves every comparison the code performs
  (`After` is `<` flipped, `Before` is `<`).
* Fallible timestamp parsing (`time.Parse` of the Jira time format) is
  modelled by carrying the parse result as `Option Int` in the raw
  records: `none` models a string that fails to parse.
* The remote gateway (`jiraGet` behind the various REST paths) is
  modelled as a structure of functions returning `Except String`, one
  per endpoint the engine consumes.
* Goroutine fan-out (`errgroup`) is serialized deterministically: the
  facets of a node are resolved in program order (status, comments,
  children) and concurrent top-level builds are serialized in query
  order; "any facet failure fails the node" is preserved exactly.
* The unbounded recursion of `fetchChildren` over an arbitrary gateway
  is made total with an explicit `fuel` bound; the Go code assumes the
  real issue hierarchy is finite (spec §4.2), and every theorem holds
  for every fuel value.
-/

/-- Model of `Comment` from `internal/jira/issues.go`: `{Content, Who, When}`. -/
structure Comment where
  Content : String
  Who : String
  When : Int
deriving Repr, DecidableEq

/-- The anonymous `Status` struct of `Issue`: `{Name, Who, When}`. -/
structure StatusInfo where
  Name : String
  Who : String
  When : Int
deriving Repr, DecidableEq

/-- Model of `Issue` from `internal/jira/issues.go`. The nested `Children : List Issue`
makes this a rose tree, declared as an inductive with named fields. -/
inductive Issue : Type where
  | mk (Key URL Summary Description : String) (Created : Int)
      (IssueType : String) (Status : StatusInfo)
      (Children : List Issue) (Comments : List Comment) : Issue
deriving Repr

namespace Issue

def Key : Issue → String
  | .mk k _ _ _ _ _ _ _ _ => k

def URL : Issue → String
  | .mk _ u _ _ _ _ _ _ _ => u

def Summary : Issue → String
  | .mk _ _ s _ _ _ _ _ _ => s

def Description : Issue → String
  | .mk _ _ _ d _ _ _ _ _ => d

def Created : Issue → Int
  | .mk _ _ _ _ c _ _ _ _ => c

def IssueType : Issue → String
  | .mk _ _ _ _ _ t _ _ _ => t

def Status : Issue → StatusInfo
  | .mk _ _ _ _ _ _ st _ _ => st

def Children : Issue → List Issue
  | .mk _ _ _ _ _ _ _ ch _ => ch

def Comments : Issue → List Comment
  | .mk _ _ _ _ _ _ _ _ cm => cm

/-- Model of `Embedder` (issues.go:44): a top issue used only as an embedder —
either a virtual issue (no key) or one with children. -/
def Embedder (i : Issue) : Bool :=
  i.Key == "" || i.Children.length > 0

end Issue

mutual

/-- Model of `KeptRecentEvents` (issues.go:86): filters an issue in place to only
recent events and reports whether any change happened on the issue or any
of its children.  Modelled purely: returns the mutated issue and the
`hasChanges` flag. -/
def Issue.KeptRecentEvents : Issue → Int → Issue × Bool
  | .mk k u s d created it status children comments, sinceTime =>
    let createdRecent : Bool := sinceTime < created
    let statusRecent : Bool := sinceTime < status.When
    let status2 := if statusRecent then status else { status with Name := "" }
    let kc := keptComments comments sinceTime
    let kch := keptChildrenList children sinceTime
    (.mk k u s d created it status2 kch.1 kc.1,
      createdRecent || statusRecent || kc.2 || kch.2)

/-- The comment loop of `KeptRecentEvents` (issues.go:99-107): keeps the
comments not `Before sinceTime` and reports whether any was kept. -/
def keptComments : List Comment → Int → List Comment × Bool
  | [], _ => ([], false)
  | c :: rest, sinceTime =>
    let kc := keptComments rest sinceTime
    if c.When < sinceTime then kc else (c :: kc.1, true)

/-- The children loop of `KeptRecentEvents` (issues.go:109-117): keeps each
child whose recursive `KeptRecentEvents` reports a change, in order, and
reports whether any child was kept. -/
def keptChildrenList : List Issue → Int → List Issue × Bool
  | [], _ => ([], false)
  | c :: rest, sinceTime =>
    let kc := c.KeptRecentEvents sinceTime
    let krest := keptChildrenList rest sinceTime
    if kc.2 then (kc.1 :: krest.1, true) else krest

end

/-- An author record as returned by the Jira API (`Author.DisplayName`). -/
structure Author where
  DisplayName : String
deriving Repr, DecidableEq

/-- One item of a changelog entry (`{Field, ToString}` in `fetchStatusUpdate`). -/
structure ChangeItem where
  Field : String
  ToString : String
deriving Repr, DecidableEq

/-- One changelog entry (a `Values` element in `fetchStatusUpdate`): author,
creation timestamp (already parsed; `none` models an unparseable string,
which the code warns about and skips) and the changed items. -/
structure ChangeSet where
  Author : Author
  Created : Option Int
  Items : List ChangeItem
deriving Repr, DecidableEq

/-- One raw comment (a `Comments` element in `fetchComments`). -/
structure RawComment where
  Author : Author
  Created : Option Int
  Body : String
deriving Repr, DecidableEq

/-- The `Fields` part of `jsonIssue` (issues.go:185).  `Created` carries the
parse result of the created string; `IssueTypeName` and `StatusName` are the
nested `IssueType.Name` and `Status.Name`. -/
structure JsonFields where
  Summary : String
  Description : String
  Created : Option Int
  IssueTypeName : String
  StatusName : String
deriving Repr, DecidableEq

/-- Model of `jsonIssue` (issues.go:185): the JSON representation of a Jira issue. -/
structure jsonIssue where
  Key : String
  Fields : JsonFields
deriving Repr, DecidableEq

/-- The remote issue gateway: one function per REST endpoint the engine
consumes through `jiraGet`, each returning data or a transport error.
`search` takes the JQL string (both the top-level queries and
`fetchChildren`'s `parent = KEY` query go through `/rest/api/2/search`). -/
structure Gateway where
  baseURL : String
  changelog : String → Except String (List ChangeSet)
  comments : String → Except String (List RawComment)
  search : String → Except String (List jsonIssue)

/-- The changelog scan of `fetchStatusUpdate` (issues.go:270-293).  For each
entry in raw list order: an unparseable timestamp is skipped; the first entry
containing an item with `Field = "status"` whose `ToString` equals the current
status name updates `{Who, When}` when its timestamp is later than the stored
one, and then `break outer` stops the whole scan. -/
def fetchStatusUpdateLoop (st : StatusInfo) : List ChangeSet → StatusInfo
  | [] => st
  | changeSet :: rest =>
    match changeSet.Created with
    | none => fetchStatusUpdateLoop st rest
    | some modTime =>
      if changeSet.Items.any fun item =>
          item.Field == "status" && st.Name == item.ToString then
        (if st.When < modTime then
          { st with Who := changeSet.Author.DisplayName, When := modTime }
        else st)
      else fetchStatusUpdateLoop st rest

/-- Model of `fetchStatusUpdate` (issues.go:248): fetches the changelog — a transport
failure is returned as an error — and resolves the status `{Who, When}` via
the scan above. -/
def fetchStatusUpdate (g : Gateway) (key : String) (st : StatusInfo) :
    Except String StatusInfo :=
  match g.changelog key with
  | .error e =>
    .error ("failed to check recent status change for issue " ++ key ++ ": " ++ e)
  | .ok values => .ok (fetchStatusUpdateLoop st values)

/-- The conversion loop of `fetchComments` (issues.go:318-334): comments with
unparseable timestamps are warned about and skipped, the rest are converted
in order. -/
def parseComments : List RawComment → List Comment
  | [] => []
  | rc :: rest =>
    match rc.Created with
    | none => parseComments rest
    | some createdTime =>
      ⟨rc.Body, rc.Author.DisplayName, createdTime⟩ :: parseComments rest

/-- Model of `fetchComments` (issues.go:299): fetches all comments in ascending
creation order; a transport failure is an error. -/
def fetchComments (g : Gateway) (key : String) : Except String (List Comment) :=
  match g.comments key with
  | .error e => .error ("failed to get issue comments for " ++ key ++ ": " ++ e)
  | .ok rcs => .ok (parseComments rcs)

mutual

/-- Model of `newIssueFromJsonIssue` (issues.go:204): parses the created timestamp (a
hard failure when unparseable), then resolves the three facets — status
history, comments, children — all of which must succeed.  The `errgroup`
fan-out is serialized in program order; any facet failure fails the node.
`fuel` bounds the child recursion depth, which the Go code leaves bounded
only by the real issue hierarchy (spec §4.2). -/
def newIssueFromJsonIssue : Nat → Gateway → jsonIssue → Except String Issue
  | 0, _, j => .error ("issue hierarchy recursion budget exhausted at " ++ j.Key)
  | fuel + 1, g, j =>
    match j.Fields.Created with
    | none => .error ("failed to parse created time for issue " ++ j.Key)
    | some createdTime =>
      match fetchStatusUpdate g j.Key ⟨j.Fields.StatusName, "", 0⟩ with
      | .error e =>
        .error ("failed to fetch additional issue data for " ++ j.Key ++ ": " ++ e)
      | .ok st =>
        match fetchComments g j.Key with
        | .error e =>
          .error ("failed to fetch additional issue data for " ++ j.Key ++ ": " ++ e)
        | .ok comments =>
          match fetchChildren fuel g j.Key with
          | .error e =>
            .error ("failed to fetch additional issue data for " ++ j.Key ++ ": " ++ e)
          | .ok children =>
            .ok (.mk j.Key (g.baseURL ++ "/browse/" ++ j.Key) j.Fields.Summary
              j.Fields.Description createdTime j.Fields.IssueTypeName st
              children comments)
termination_by fuel _ _ => (fuel, 0, 0)

/-- Model of `fetchChildren` (issues.go:340): queries `parent = KEY` and builds each
child in query order, aborting on the first failure. -/
def fetchChildren (fuel : Nat) (g : Gateway) (key : String) :
    Except String (List Issue) :=
  match g.search ("parent = " ++ key) with
  | .error e => .error ("failed to gather children of " ++ key ++ ": " ++ e)
  | .ok childJsons => buildList fuel g childJsons
termination_by (fuel, 3, 0)

/-- The child build loop shared by `fetchChildren` (issues.go:355-361) and the
top-level fan-out of `getIssuesByJQL` (jira.go:135-145), serialized in query
order: all builds must succeed, the first failure aborts. -/
def buildList : Nat → Gateway → List jsonIssue → Except String (List Issue)
  | _, _, [] => .ok []
  | fuel, g, j :: rest =>
    match newIssueFromJsonIssue fuel g j with
    | .error e => .error e
    | .ok i =>
      match buildList fuel g rest with
      | .error e => .error e
      | .ok is => .ok (i :: is)
termination_by fuel _ js => (fuel, 2, js.length)

end

/-- Model of `getIssuesByJQL`, slice-returning variant (jira.go:116-158): an empty JQL
is a configuration error; the search failure or any top-level build failure
yields an error and no issues. -/
def getIssuesByJQL (fuel : Nat) (g : Gateway) (jql : String) :
    Except String (List Issue) :=
  if jql == "" then .error "failed to retrieved issues from JQL: no JQL query provided"
  else
    match g.search jql with
    | .error e => .error ("failed to retrieved issues from JQL: " ++ e)
    | .ok jIssues =>
      match buildList fuel g jIssues with
      | .error e => .error ("failed to retrieved issues from JQL: " ++ e)
      | .ok issues => .ok issues

/-- Model of `getIssuesByJQL`, streaming `iter.Seq2` variant (jira.go:315-383): every
top issue is built independently (no cross-cancellation), each successfully
built issue is sent over the channel and yielded as it completes, and only
after all builds finish is the first error yielded.  The nondeterministic
completion order of the channel is serialized here as query order; the
success/error content of the yielded sequence is schedule-independent. -/
def getIssuesByJQLSeq (fuel : Nat) (g : Gateway) (jql : String) :
    List (Except String Issue) :=
  if jql == "" then [.error "failed to retrieved issues from JQL: no JQL query provided"]
  else
    match g.search jql with
    | .error e => [.error ("failed to retrieved issues from JQL: " ++ e)]
    | .ok jIssues =>
      let results := jIssues.map (newIssueFromJsonIssue fuel g)
      (results.filterMap Except.toOption).map Except.ok ++
        match results.findSome? (fun r =>
            match r with | .error e => some e | .ok _ => none) with
        | some e => [.error ("failed to retrieved issues from JQL: " ++ e)]
        | none => []

/-- The fixed JQL of `GetMyAssignedEpics` (jira.go:100). -/
def epicsJQL : String := "assignee = currentUser() AND issuetype = Epic AND status != Done"

/-- Model of `GetMyAssignedEpics` (jira.go:96), slice-returning variant. -/
def GetMyAssignedEpics (fuel : Nat) (g : Gateway) : Except String (List Issue) :=
  getIssuesByJQL fuel g epicsJQL

/-- The JQL built by `GetIssuesByKeys` (jira.go:112). -/
def keysJQL (keys : List String) : String :=
  "key in (" ++ String.intercalate "," keys ++ ")"

/-- Model of `GetIssuesByKeys` (jira.go:105), slice-returning variant: an empty key
list is a configuration error. -/
def GetIssuesByKeys (fuel : Nat) (g : Gateway) (keys : List String) :
    Except String (List Issue) :=
  if keys.length = 0 then .error "no issue keys provided"
  else getIssuesByJQL fuel g (keysJQL keys)

/-- The virtual top issue built by `collect` under the `merge` strategy
(actions.go:28-31): `jira.Issue{Key: "virtual", Children: topIssues}`, all
other fields at their zero values. -/
def virtualTop (topIssues : List Issue) : Issue :=
  .mk "virtual" "" "" "" 0 "" ⟨"", "", 0⟩ topIssues []

/-- Model of `collect` (actions.go:12): fetches the top issues (assigned epics when no
keys are given, else by keys) and applies the grouping strategy. -/
def collect (fuel : Nat) (g : Gateway) (groupStrategy : String)
    (topIssueKeys : List String) : Except String (List Issue) :=
  match (if topIssueKeys.length = 0 then GetMyAssignedEpics fuel g
         else GetIssuesByKeys fuel g topIssueKeys) with
  | .error e => .error ("error fetching issues: " ++ e)
  | .ok topIssues =>
    .ok (if groupStrategy == "merge" then [virtualTop topIssues]
         else if groupStrategy == "children" then
           topIssues.flatMap Issue.Children
         else topIssues)

/-- Replaces the comments of an issue (the `i.Comments = nil` assignment of
`filterEvents` / `runRoot`, generalized to any value). -/
def Issue.setComments : Issue → List Comment → Issue
  | .mk k u s d cr it st ch _, cm => .mk k u s d cr it st ch cm

/-- Model of `filterEvents` (actions.go:47): for each top issue, an embedder gets its
comments cleared first, then only issues with recent events are kept, in
their possibly pruned form.  `runRoot` (main.go:149-155) performs the same
steps inline per streamed issue. -/
def filterEvents : List Issue → Int → List Issue
  | [], _ => []
  | i :: rest, sinceTime =>
    let i2 := if i.Embedder then i.setComments [] else i
    let ki := i2.KeptRecentEvents sinceTime
    if ki.2 then ki.1 :: filterEvents rest sinceTime
    else filterEvents rest sinceTime

/-- Self-activity as worded by the spec (§4.3): created strictly after the
cutoff, or the status change strictly after the cutoff, or some comment not
before the cutoff.  Spec-side definition, to be compared with the source
functions. -/
def specSelfActivity (i : Issue) (cutoff : Int) : Bool :=
  (cutoff < i.Created) || (cutoff < i.Status.When) ||
    i.Comments.any fun c => cutoff ≤ c.When

mutual

/-- Checks a Boolean predicate on every node of an issue tree. -/
def Issue.allNodes (p : Issue → Bool) : Issue → Bool
  | .mk k u s d cr it st ch cm =>
    p (.mk k u s d cr it st ch cm) && allNodesList p ch

/-- Checks a Boolean predicate on every node of each tree of a list. -/
def allNodesList (p : Issue → Bool) : List Issue → Bool
  | [] => true
  | c :: rest => Issue.allNodes p c && allNodesList p rest

end

/-! Concrete fixtures used to instantiate the theorems below: small
gateways and issues with explicit data. -/

/-- A changelog entry transitioning into status `Done` at time 5 by alice —
the first entry in raw list order. -/
def csFirst : ChangeSet := ⟨⟨"alice"⟩, some 5, [⟨"status", "Done"⟩]⟩

/-- A changelog entry transitioning into status `Done` at time 9 by bob —
the later-timestamped entry, second in raw list order. -/
def csLater : ChangeSet := ⟨⟨"bob"⟩, some 9, [⟨"status", "Done"⟩]⟩

/-- A gateway whose changelog holds two entries transitioning into the same
status, the earlier-timestamped one first in raw order. -/
def gwChangelogTie : Gateway :=
  ⟨"https://jira.example", fun _ => .ok [csFirst, csLater],
    fun _ => .ok [], fun _ => .ok []⟩

/-- A raw top-level issue `A` that builds successfully. -/
def jA : jsonIssue := ⟨"A", ⟨"summary A", "desc A", some 10, "Task", "Open"⟩⟩

/-- A raw top-level issue `B` whose comments fetch will fail below. -/
def jB : jsonIssue := ⟨"B", ⟨"summary B", "desc B", some 11, "Task", "Open"⟩⟩

/-- A gateway whose changelog endpoint is down. -/
def gwChangelogDown : Gateway :=
  ⟨"https://jira.example", fun _ => .error "boom",
    fun _ => .ok [], fun _ => .ok []⟩

/-- A gateway where the top query `T` returns issues `A` and `B`, and the
comments fetch fails for `B` only. -/
def gwOneBad : Gateway :=
  ⟨"https://jira.example", fun _ => .ok [],
    fun k => if k == "B" then .error "boom" else .ok [],
    fun q => if q == "T" then .ok [jA, jB] else .ok []⟩

/-- The issue built from `jA` against the gateways above. -/
def issueA : Issue :=
  .mk "A" "https://jira.example/browse/A" "summary A" "desc A" 10 "Task"
    ⟨"Open", "", 0⟩ [] []

/-- A gateway every query of which returns an empty result. -/
def gwNoEpics : Gateway :=
  ⟨"https://jira.example", fun _ => .ok [], fun _ => .ok [], fun _ => .ok []⟩

/-- A raw issue `K1` for the explicit-keys query. -/
def jK1 : jsonIssue := ⟨"K1", ⟨"s1", "d1", some 10, "Task", "Open"⟩⟩

/-- A gateway where the explicit-keys query for `K1` returns exactly `jK1`. -/
def gwOneIssue : Gateway :=
  ⟨"https://jira.example", fun _ => .ok [], fun _ => .ok [],
    fun q => if q == "key in (K1)" then .ok [jK1] else .ok []⟩

/-- The issue built from `jK1`. -/
def issueK1 : Issue :=
  .mk "K1" "https://jira.example/browse/K1" "s1" "d1" 10 "Task"
    ⟨"Open", "", 0⟩ [] []

/-- A raw child issue of `P`. -/
def jChild : jsonIssue := ⟨"C1", ⟨"sc", "dc", some 8, "Sub", "Open"⟩⟩

/-- A raw parent issue `P`. -/
def jParent : jsonIssue := ⟨"P", ⟨"sp", "dp", some 5, "Epic", "InProgress"⟩⟩

/-- A gateway where the only child of `P` is `jChild`. -/
def gwParent : Gateway :=
  ⟨"https://jira.example", fun _ => .ok [], fun _ => .ok [],
    fun q => if q == "parent = P" then .ok [jChild] else .ok []⟩

/-- The issue built from `jChild`. -/
def issueChild : Issue :=
  .mk "C1" "https://jira.example/browse/C1" "sc" "dc" 8 "Sub"
    ⟨"Open", "", 0⟩ [] []

/-- The issue built from `jParent`: one child, in query order. -/
def issueParent : Issue :=
  .mk "P" "https://jira.example/browse/P" "sp" "dp" 5 "Epic"
    ⟨"InProgress", "", 0⟩ [issueChild] []

/-- An issue created at time 5 with no status change, comments or children. -/
def issueRecent : Issue := .mk "K" "" "" "" 5 "Task" ⟨"", "", 0⟩ [] []

/-- A virtual (empty-key) top issue carrying one recent comment of its own. -/
def embedIssue : Issue := .mk "" "" "" "" 5 "" ⟨"", "", 0⟩ [] [⟨"hello", "x", 10⟩]

/-- A different comment list, to exhibit independence from comments. -/
def altComments : List Comment := [⟨"other", "y", 20⟩]

/-- The node surviving `filterEvents [embedIssue]`: comments stripped. -/
def embedResult : Issue := .mk "" "" "" "" 5 "" ⟨"", "", 0⟩ [] []

mutual

/-- Recursion principle for the nested `Issue` tree: to prove a property of
every issue it suffices to prove it for a node given it for all children. -/
def Issue.ind {motive : Issue → Prop}
    (step : ∀ k u s d cr it st ch cm,
      (∀ c ∈ ch, motive c) → motive (.mk k u s d cr it st ch cm)) :
    ∀ i, motive i
  | .mk k u s d cr it st ch cm =>
    step k u s d cr it st ch cm (Issue.indList step ch)

/-- List form of `Issue.ind`. -/
def Issue.indList {motive : Issue → Prop}
    (step : ∀ k u s d cr it st ch cm,
      (∀ c ∈ ch, motive c) → motive (.mk k u s d cr it st ch cm)) :
    ∀ l : List Issue, ∀ c ∈ l, motive c
  | x :: _, c, h =>
    Or.elim (List.mem_cons.mp h)
      (fun hc => hc ▸ Issue.ind step x)
      (fun hm => Issue.indList step _ c hm)

end

section Lemmas

/-- Unfolding equation of `KeptRecentEvents` in terms of the projections of
an issue. -/
theorem KeptRecentEvents_mk (k u s d : String) (cr : Int) (it : String)
    (st : StatusInfo) (ch : List Issue) (cm : List Comment) (t : Int) :
    (Issue.mk k u s d cr it st ch cm).KeptRecentEvents t =
      (Issue.mk k u s d cr it
        (if t < st.When then st else { st with Name := "" })
        (keptChildrenList ch t).1 (keptComments cm t).1,
       (decide (t < cr) || decide (t < st.When) || (keptComments cm t).2 ||
         (keptChildrenList ch t).2)) := by
  simp only [Issue.KeptRecentEvents]
  by_cases h : t < st.When <;> simp [h]

theorem keptComments_eq (l : List Comment) (t : Int) :
    keptComments l t =
      (l.filter (fun c => !decide (c.When < t)), l.any fun c => !decide (c.When < t)) := by
  induction l with
  | nil => rfl
  | cons c rest ih =>
    simp only [keptComments, ih, List.filter_cons, List.any_cons]
    by_cases h : c.When < t <;> simp [h]

theorem keptChildrenList_fst (l : List Issue) (t : Int) :
    (keptChildrenList l t).1 =
      (l.filter fun c => (c.KeptRecentEvents t).2).map
        fun c => (c.KeptRecentEvents t).1 := by
  induction l with
  | nil => rfl
  | cons c rest ih =>
    simp only [keptChildrenList, List.filter_cons]
    by_cases h : (c.KeptRecentEvents t).2 <;> simp [h, ih]

theorem keptChildrenList_snd (l : List Issue) (t : Int) :
    (keptChildrenList l t).2 = l.any fun c => (c.KeptRecentEvents t).2 := by
  induction l with
  | nil => rfl
  | cons c rest ih =>
    simp only [keptChildrenList, List.any_cons]
    by_cases h : (c.KeptRecentEvents t).2 <;> simp [h, ih]

theorem list_any_eq_not_isEmpty_filter {α : Type} (l : List α) (p : α → Bool) :
    l.any p = !(l.filter p).isEmpty := by
  induction l with
  | nil => rfl
  | cons a rest ih =>
    simp only [List.any_cons, List.filter_cons]
    by_cases h : p a <;> simp [h, ih]

theorem kept_Key (i : Issue) (t : Int) :
    ((i.KeptRecentEvents t).1).Key = i.Key := by
  cases i; simp [KeptRecentEvents_mk, Issue.Key]

theorem kept_Created (i : Issue) (t : Int) :
    ((i.KeptRecentEvents t).1).Created = i.Created := by
  cases i; simp [KeptRecentEvents_mk, Issue.Created]

theorem kept_Status_When (i : Issue) (t : Int) :
    ((i.KeptRecentEvents t).1).Status.When = i.Status.When := by
  cases i with
  | mk k u s d cr it st ch cm =>
    simp only [KeptRecentEvents_mk, Issue.Status]
    by_cases h : t < st.When <;> simp [h]

theorem kept_Comments (i : Issue) (t : Int) :
    ((i.KeptRecentEvents t).1).Comments =
      i.Comments.filter fun c => !decide (c.When < t) := by
  cases i; simp [KeptRecentEvents_mk, Issue.Comments, keptComments_eq]

theorem kept_Children (i : Issue) (t : Int) :
    ((i.KeptRecentEvents t).1).Children =
      (i.Children.filter fun c => (c.KeptRecentEvents t).2).map
        fun c => (c.KeptRecentEvents t).1 := by
  cases i; simp [KeptRecentEvents_mk, Issue.Children, keptChildrenList_fst]

theorem kept_snd (i : Issue) (t : Int) :
    (i.KeptRecentEvents t).2 =
      (specSelfActivity i t || i.Children.any fun c => (c.KeptRecentEvents t).2) := by
  cases i with
  | mk k u s d cr it st ch cm =>
    simp only [KeptRecentEvents_mk, specSelfActivity, Issue.Created, Issue.Status,
      Issue.Comments, Issue.Children, keptComments_eq, keptChildrenList_snd]
    have hc : ∀ c : Comment, (!decide (c.When < t)) = decide (t ≤ c.When) := by
      intro c
      by_cases h : c.When < t
      · simp [h, not_le.mpr h]
      · simp [h, not_lt.mp h]
    simp only [hc, Bool.or_assoc]

theorem specSelfActivity_kept (i : Issue) (t : Int) :
    specSelfActivity ((i.KeptRecentEvents t).1) t = specSelfActivity i t := by
  simp only [specSelfActivity, kept_Created, kept_Status_When, kept_Comments]
  congr 1
  induction i.Comments with
  | nil => rfl
  | cons c rest ih =>
    simp only [List.filter_cons, List.any_cons]
    by_cases h : c.When < t
    · simp [h, not_le.mpr h, ih]
    · simp [h, not_lt.mp h, ih]

theorem allNodesList_iff (p : Issue → Bool) (l : List Issue) :
    allNodesList p l = true ↔ ∀ c ∈ l, Issue.allNodes p c = true := by
  induction l with
  | nil => simp [allNodesList]
  | cons c rest ih => simp [allNodesList, ih]

theorem allNodes_mk (p : Issue → Bool) (k u s d : String) (cr : Int)
    (it : String) (st : StatusInfo) (ch : List Issue) (cm : List Comment) :
    Issue.allNodes p (.mk k u s d cr it st ch cm) =
      (p (.mk k u s d cr it st ch cm) && allNodesList p ch) := rfl

theorem list_isEmpty_map {α β : Type} (f : α → β) (l : List α) :
    (l.map f).isEmpty = l.isEmpty := by
  cases l <;> rfl

/-- Retention invariant (spec §8): in a kept tree, every node has
self-activity or a nonempty (kept) children list. -/
theorem kept_allNodes (t : Int) :
    ∀ i : Issue, (i.KeptRecentEvents t).2 = true →
      Issue.allNodes (fun n => specSelfActivity n t || !n.Children.isEmpty)
        ((i.KeptRecentEvents t).1) = true := by
  refine Issue.ind ?_
  intro k u s d cr it st ch cm IH h
  have hsnd := kept_snd (Issue.mk k u s d cr it st ch cm) t
  rw [h] at hsnd
  simp only [Issue.Children] at hsnd
  have hch : ((Issue.mk k u s d cr it st ch cm).KeptRecentEvents t).1.Children =
      (ch.filter fun c => (c.KeptRecentEvents t).2).map
        fun c => (c.KeptRecentEvents t).1 := by
    simpa [Issue.Children] using
      kept_Children (Issue.mk k u s d cr it st ch cm) t
  rcases hk :
      ((Issue.mk k u s d cr it st ch cm).KeptRecentEvents t).1 with
    ⟨k2, u2, s2, d2, cr2, it2, st2, ch2, cm2⟩
  have hchl : ch2 = (ch.filter fun c => (c.KeptRecentEvents t).2).map
      fun c => (c.KeptRecentEvents t).1 := by
    have h2 := congrArg Issue.Children hk
    rw [hch] at h2
    simpa [Issue.Children] using h2.symm
  rw [allNodes_mk, Bool.and_eq_true]
  constructor
  · -- the node itself: self-activity or a nonempty children list
    rcases hany : ch.any (fun c => (c.KeptRecentEvents t).2) with _ | _
    · -- no child kept: self-activity must hold and is preserved
      rw [hany, Bool.or_false] at hsnd
      have hpres := specSelfActivity_kept (Issue.mk k u s d cr it st ch cm) t
      rw [hk] at hpres
      simp [hpres, ← hsnd]
    · -- some child kept: the filtered children list is nonempty
      have hni : ch2.isEmpty = false := by
        rw [list_any_eq_not_isEmpty_filter] at hany
        rw [hchl, list_isEmpty_map]
        cases hfe : ((ch.filter fun c => (c.KeptRecentEvents t).2)).isEmpty
        · rfl
        · rw [hfe] at hany; simp at hany
      simp [Issue.Children, hni]
  · -- every kept child satisfies the invariant recursively
    rw [allNodesList_iff]
    intro c2 hc2
    rw [hchl] at hc2
    obtain ⟨c, hcmem, rfl⟩ := List.mem_map.mp hc2
    have hcf := List.mem_filter.mp hcmem
    exact IH c hcf.1 hcf.2

theorem keptChildrenList_of_fixed (t : Int) (l : List Issue)
    (hfix : ∀ c ∈ l, c.KeptRecentEvents t = (c, true)) :
    keptChildrenList l t = (l, !l.isEmpty) := by
  induction l with
  | nil => rfl
  | cons c rest ih =>
    have hc := hfix c (List.mem_cons_self c rest)
    have hrest := ih fun c2 hc2 => hfix c2 (List.mem_cons_of_mem c hc2)
    simp [keptChildrenList, hc, hrest]

theorem list_filter_self {α : Type} (p : α → Bool) (l : List α) :
    (l.filter p).filter p = l.filter p := by
  refine List.filter_eq_self.mpr ?_
  intro a ha
  exact (List.mem_filter.mp ha).2

/-- Idempotence of the recency filter: a second pass with the same cutoff
returns the once-filtered issue unchanged, with the same keep flag. -/
theorem kept_idem (t : Int) :
    ∀ i : Issue, ((i.KeptRecentEvents t).1).KeptRecentEvents t =
      i.KeptRecentEvents t := by
  refine Issue.ind ?_
  intro k u s d cr it st ch cm IH
  have hfix : ∀ c2 ∈ (keptChildrenList ch t).1,
      c2.KeptRecentEvents t = (c2, true) := by
    intro c2 hc2
    rw [keptChildrenList_fst] at hc2
    obtain ⟨c, hcmem, rfl⟩ := List.mem_map.mp hc2
    have hcf := List.mem_filter.mp hcmem
    rw [IH c hcf.1]
    exact Prod.ext rfl hcf.2
  have hcm2 : ((keptComments cm t).1.filter fun c => !decide (c.When < t)) =
      (keptComments cm t).1 := by
    rw [keptComments_eq]
    exact list_filter_self _ cm
  have hcmany : ((keptComments cm t).1.any fun c => !decide (c.When < t)) =
      (cm.any fun c => !decide (c.When < t)) := by
    rw [list_any_eq_not_isEmpty_filter, hcm2, keptComments_eq,
      ← list_any_eq_not_isEmpty_filter]
  have hchany : (!(keptChildrenList ch t).1.isEmpty) =
      (keptChildrenList ch t).2 := by
    rw [keptChildrenList_fst, keptChildrenList_snd, list_isEmpty_map,
      list_any_eq_not_isEmpty_filter]
  have hkc1 : (keptComments (keptComments cm t).1 t).1 = (keptComments cm t).1 := by
    rw [keptComments_eq (keptComments cm t).1]
    exact hcm2
  have hkc2 : (keptComments (keptComments cm t).1 t).2 = (keptComments cm t).2 := by
    simp [keptComments_eq]
  rw [KeptRecentEvents_mk, KeptRecentEvents_mk,
    keptChildrenList_of_fixed t _ hfix]
  by_cases hst : t < st.When
  · simp [hst, hkc1, hkc2, hchany]
  · simp [hst, hkc1, hkc2, hchany]

theorem newIssue_error_of_changelog (fuel : Nat) (g : Gateway) (j : jsonIssue)
    (e : String) (h : g.changelog j.Key = .error e) :
    (newIssueFromJsonIssue fuel g j).isOk = false := by
  cases fuel with
  | zero =>
    rw [newIssueFromJsonIssue]
    rfl
  | succ n =>
    have hsu : fetchStatusUpdate g j.Key ⟨j.Fields.StatusName, "", 0⟩ =
        .error ("failed to check recent status change for issue " ++
          j.Key ++ ": " ++ e) := by
      rw [fetchStatusUpdate, h]
    rcases hcr : j.Fields.Created with _ | created
    · rw [newIssueFromJsonIssue, hcr]
      rfl
    · rw [newIssueFromJsonIssue, hcr, hsu]
      rfl

theorem buildList_error_of_mem (fuel : Nat) (g : Gateway) (js : List jsonIssue)
    (j : jsonIssue) (hmem : j ∈ js)
    (hfail : (newIssueFromJsonIssue fuel g j).isOk = false) :
    (buildList fuel g js).isOk = false := by
  induction js with
  | nil => cases hmem
  | cons j2 rest ih =>
    rcases List.mem_cons.mp hmem with hj | hj
    · subst hj
      rcases hb : newIssueFromJsonIssue fuel g j with e | i
      · rw [buildList, hb]
        rfl
      · rw [hb] at hfail
        simp [Except.isOk, Except.toBool] at hfail
    · rcases hb : newIssueFromJsonIssue fuel g j2 with e | i
      · rw [buildList, hb]
        rfl
      · rcases hr : buildList fuel g rest with e2 | is
        · rw [buildList, hb, hr]
          rfl
        · have h2 := ih hj
          rw [hr] at h2
          simp [Except.isOk, Except.toBool] at h2

theorem newIssue_Key (fuel : Nat) (g : Gateway) (j : jsonIssue) (i : Issue)
    (h : newIssueFromJsonIssue fuel g j = .ok i) : i.Key = j.Key := by
  cases fuel with
  | zero => simp [newIssueFromJsonIssue] at h
  | succ n =>
    rcases hcr : j.Fields.Created with _ | created <;>
      rw [newIssueFromJsonIssue, hcr] at h
    · simp at h
    · rcases hst : fetchStatusUpdate g j.Key ⟨j.Fields.StatusName, "", 0⟩ with e | st <;>
        rw [hst] at h
      · simp at h
      · rcases hcm : fetchComments g j.Key with e | cms <;> rw [hcm] at h
        · simp at h
        · rcases hch : fetchChildren n g j.Key with e | chs <;> rw [hch] at h
          · simp at h
          · cases h; rfl

theorem buildList_keys (fuel : Nat) (g : Gateway) :
    ∀ (js : List jsonIssue) (is : List Issue),
      buildList fuel g js = .ok is →
      is.map Issue.Key = js.map jsonIssue.Key := by
  intro js
  induction js with
  | nil =>
    intro is h
    rw [buildList] at h
    cases h; rfl
  | cons j rest ih =>
    intro is h
    rw [buildList] at h
    rcases hb : newIssueFromJsonIssue fuel g j with e | i <;> rw [hb] at h
    · simp at h
    · rcases hr : buildList fuel g rest with e2 | is2 <;> rw [hr] at h
      · simp at h
      · cases h
        simp [newIssue_Key fuel g j i hb, ih is2 hr]

theorem newIssue_children_keys (fuel : Nat) (g : Gateway) (j : jsonIssue)
    (i : Issue) (js : List jsonIssue)
    (hb : newIssueFromJsonIssue fuel g j = .ok i)
    (hs : g.search ("parent = " ++ j.Key) = .ok js) :
    i.Children.map Issue.Key = js.map jsonIssue.Key := by
  cases fuel with
  | zero => simp [newIssueFromJsonIssue] at hb
  | succ n =>
    rcases hcr : j.Fields.Created with _ | created <;>
      rw [newIssueFromJsonIssue, hcr] at hb
    · simp at hb
    · rcases hst : fetchStatusUpdate g j.Key ⟨j.Fields.StatusName, "", 0⟩ with e | st <;>
        rw [hst] at hb
      · simp at hb
      · rcases hcm : fetchComments g j.Key with e | cms <;> rw [hcm] at hb
        · simp at hb
        · rcases hch : fetchChildren n g j.Key with e | chs <;> rw [hch] at hb
          · simp at hb
          · cases hb
            rw [fetchChildren, hs] at hch
            simp [Issue.Children]
            exact buildList_keys n g js chs hch

theorem getIssuesByJQL_error_of_build_fail (fuel : Nat) (g : Gateway)
    (jql : String) (js : List jsonIssue) (j : jsonIssue)
    (hs : g.search jql = .ok js) (hmem : j ∈ js)
    (hfail : (newIssueFromJsonIssue fuel g j).isOk = false) :
    (getIssuesByJQL fuel g jql).isOk = false := by
  rw [getIssuesByJQL]
  cases hq : jql == ""
  · rw [if_neg (by simp)]
    rcases hr : buildList fuel g js with e | is
    · simp [hs, hr, Except.isOk, Except.toBool]
    · have hbl := buildList_error_of_mem fuel g js j hmem hfail
      rw [hr] at hbl
      simp [Except.isOk, Except.toBool] at hbl
  · rw [if_pos rfl]
    rfl

theorem keysJQL_ne_empty (keys : List String) : (keysJQL keys == "") = false := by
  have hlen : (keysJQL keys).length ≠ 0 := by
    simp only [keysJQL, String.length_append]
    have h8 : ("key in (" : String).length = 8 := by decide
    omega
  cases hq : keysJQL keys == ""
  · rfl
  · exact absurd (congrArg String.length (eq_of_beq hq)) hlen

theorem collect_merge_keys (fuel : Nat) (g : Gateway) (keys : List String)
    (js : List jsonIssue) (tis : List Issue) (hk : keys.length ≠ 0)
    (hs : g.search (keysJQL keys) = .ok js)
    (hb : buildList fuel g js = .ok tis) :
    collect fuel g "merge" keys = .ok [virtualTop tis] := by
  rw [collect, if_neg hk, GetIssuesByKeys, if_neg hk, getIssuesByJQL,
    keysJQL_ne_empty]
  rw [if_neg (by simp)]
  simp [hs, hb]

theorem collect_merge_epics (fuel : Nat) (g : Gateway)
    (hs : g.search epicsJQL = .ok []) :
    collect fuel g "merge" [] = .ok [virtualTop []] := by
  have hne : (epicsJQL == "") = false := rfl
  rw [collect, if_pos (List.length_nil ▸ rfl), GetMyAssignedEpics,
    getIssuesByJQL, hne]
  rw [if_neg (by simp)]
  simp [hs, buildList]

theorem filterEvents_virtualTop_empty (t : Int) (h : 0 ≤ t) :
    filterEvents [virtualTop []] t = [] := by
  have hlt : ¬ (t < 0) := not_lt.mpr h
  simp [filterEvents, virtualTop, Issue.Embedder, Issue.Key, Issue.Children,
    KeptRecentEvents_mk, keptComments, keptChildrenList, hlt]

theorem setComments_Comments (i : Issue) (cs : List Comment) :
    (i.setComments cs).Comments = cs := by
  cases i; rfl

theorem Embedder_setComments (i : Issue) (cs : List Comment) :
    (i.setComments cs).Embedder = i.Embedder := by
  cases i; rfl

theorem setComments_setComments (i : Issue) (cs cs2 : List Comment) :
    (i.setComments cs).setComments cs2 = i.setComments cs2 := by
  cases i; rfl

theorem decide_not_lt (a b : Int) : (!decide (a < b)) = decide (b ≤ a) := by
  by_cases h : a < b
  · simp [h, not_le.mpr h]
  · simp [h, not_lt.mp h]

theorem kept_children_key_sublist (i : Issue) (t : Int) :
    List.Sublist (((i.KeptRecentEvents t).1).Children.map Issue.Key)
      (i.Children.map Issue.Key) := by
  rw [kept_Children, List.map_map]
  have heq : (i.Children.filter fun c => (c.KeptRecentEvents t).2).map
      (Issue.Key ∘ fun c => (c.KeptRecentEvents t).1) =
      (i.Children.filter fun c => (c.KeptRecentEvents t).2).map Issue.Key := by
    refine List.map_congr_left ?_
    intro c _
    exact kept_Key c t
  rw [heq]
  exact List.Sublist.map Issue.Key (List.filter_sublist i.Children)

end Lemmas

section Claims

/-- C1: the spec requires status-history resolution to retain the
latest-timestamped changelog entry among all entries transitioning into the
current status.  The code (`fetchStatusUpdate`, issues.go:270-293) instead
stops at the first such entry in raw list order (`break outer`), its
`modTime.After` guard notwithstanding: on a changelog holding an entry at
time 5 (alice) followed by one at time 9 (bob), both into the current status
`Done`, it retains alice at 5, not the latest-timestamped bob at 9 — which
also contradicts the function's own documentation ("marks last recent status
change"). -/
theorem C1_status_tiebreak_first_raw_entry :
    gwChangelogTie.changelog "K" = .ok [csFirst, csLater] ∧
    csFirst.Created = some 5 ∧ csLater.Created = some 9 ∧
    fetchStatusUpdate gwChangelogTie "K" ⟨"Done", "", 0⟩ =
      .ok ⟨"Done", "alice", 5⟩ ∧
    (⟨"Done", "alice", 5⟩ : StatusInfo) ≠ ⟨"Done", "bob", 9⟩ :=
  ⟨rfl, rfl, rfl, rfl, by decide⟩

/-- C2 (counterexample): the claim says a change-history fetch failure is
suppressed and never fails the node's build; but with a gateway whose
changelog endpoint fails, `newIssueFromJsonIssue` returns an error. -/
theorem C2_counterexample_changelog_failure_fails_build :
    gwChangelogDown.changelog jA.Key = .error "boom" ∧
    (newIssueFromJsonIssue 1 gwChangelogDown jA).isOk = false :=
  ⟨rfl, by
    simp [newIssueFromJsonIssue, gwChangelogDown, jA, fetchStatusUpdate,
      Except.isOk, Except.toBool]⟩

/-- C2 (amended): in `fetchStatusUpdate` (issues.go:266-268) a transport
failure of the change-history fetch propagates like any other facet failure
and fails the node's build; the suppression described by the spec exists
only in the superseded `updateIfStatusRecent` iteration. -/
theorem C2_changelog_failure_fatal (fuel : Nat) (g : Gateway) (j : jsonIssue)
    (e : String) (h : g.changelog j.Key = .error e) :
    (newIssueFromJsonIssue fuel g j).isOk = false :=
  newIssue_error_of_changelog fuel g j e h

/-- C2 (witness): the amended theorem at a concrete gateway and issue. -/
theorem C2_witness :
    gwChangelogDown.changelog jA.Key = .error "boom" ∧
    (newIssueFromJsonIssue 3 gwChangelogDown jA).isOk = false :=
  ⟨rfl, C2_changelog_failure_fatal 3 gwChangelogDown jA "boom" rfl⟩

/-- C3 (counterexample): the claim says any failure yields a single error
and zero issues; but the streaming `getIssuesByJQL` (jira.go:315-383) yields
the successfully built top issue `A` before reporting the failure of `B`. -/
theorem C3_counterexample_stream_emits_before_error :
    getIssuesByJQLSeq 1 gwOneBad "T" =
      [.ok issueA,
       .error ("failed to retrieved issues from JQL: " ++
         "failed to fetch additional issue data for B: " ++
         "failed to get issue comments for B: boom")] := by
  simp [getIssuesByJQLSeq, gwOneBad, newIssueFromJsonIssue, fetchStatusUpdate,
    fetchComments, fetchChildren, buildList, fetchStatusUpdateLoop,
    parseComments, jA, jB, issueA, Except.toOption]

/-- C3 (amended): the slice-returning assembly used by `collect`
(jira.go:116-158) is all-or-nothing: if building any top-level issue fails,
`getIssuesByJQL` returns an error and no issues.  The streaming variant may
yield fully built top-level trees before reporting the error (see the
counterexample), though never a partially built tree. -/
theorem C3_slice_assembly_all_or_nothing (fuel : Nat) (g : Gateway)
    (jql : String) (js : List jsonIssue) (j : jsonIssue)
    (hs : g.search jql = .ok js) (hmem : j ∈ js)
    (hfail : (newIssueFromJsonIssue fuel g j).isOk = false) :
    (getIssuesByJQL fuel g jql).isOk = false :=
  getIssuesByJQL_error_of_build_fail fuel g jql js j hs hmem hfail

/-- C3 (witness): the amended theorem at the concrete gateway where the
comments fetch of top issue `B` fails. -/
theorem C3_witness :
    gwOneBad.search "T" = .ok [jA, jB] ∧ jB ∈ [jA, jB] ∧
    (newIssueFromJsonIssue 1 gwOneBad jB).isOk = false ∧
    (getIssuesByJQL 1 gwOneBad "T").isOk = false := by
  have hfail : (newIssueFromJsonIssue 1 gwOneBad jB).isOk = false := by
    simp [newIssueFromJsonIssue, gwOneBad, jB, fetchStatusUpdate,
      fetchComments, Except.isOk, Except.toBool]
  exact ⟨rfl, by simp, hfail,
    C3_slice_assembly_all_or_nothing 1 gwOneBad "T" [jA, jB] jB rfl
      (by simp) hfail⟩

/-- C4 (counterexample): the claim says zero top-level issues under `merge`
yield zero trees; but `collect` (actions.go:26-31) always emits exactly one
virtual root, with an empty children sequence. -/
theorem C4_counterexample_merge_emits_virtual_root :
    collect 1 gwNoEpics "merge" [] = .ok [virtualTop []] ∧
    [virtualTop []].length = 1 :=
  ⟨by simp [collect, GetMyAssignedEpics, getIssuesByJQL, epicsJQL, gwNoEpics,
      buildList, virtualTop], rfl⟩

/-- C4 (amended): with zero top-level issues under `merge`, `collect` emits
exactly one virtual root (`Key = "virtual"`) with an empty children
sequence; the downstream recency filter then always drops it (for any cutoff
at or after the zero time), so zero trees survive the pipeline. -/
theorem C4_merge_empty_virtual_then_filtered (fuel : Nat) (g : Gateway)
    (t : Int) (hs : g.search epicsJQL = .ok []) (ht : 0 ≤ t) :
    collect fuel g "merge" [] = .ok [virtualTop []] ∧
    filterEvents [virtualTop []] t = [] :=
  ⟨collect_merge_epics fuel g hs, filterEvents_virtualTop_empty t ht⟩

/-- C4 (witness): the amended theorem at a concrete gateway and cutoff. -/
theorem C4_witness :
    gwNoEpics.search epicsJQL = .ok [] ∧ (0 : Int) ≤ 0 ∧
    (collect 2 gwNoEpics "merge" [] = .ok [virtualTop []] ∧
      filterEvents [virtualTop []] 0 = []) :=
  ⟨rfl, le_refl 0, C4_merge_empty_virtual_then_filtered 2 gwNoEpics 0 rfl (le_refl 0)⟩

/-- C5 (counterexample): the claim says the merge virtual root carries the
empty string as its key; but `collect` builds it with `Key = "virtual"`,
which is not the empty string. -/
theorem C5_counterexample_virtual_root_key_nonempty :
    collect 1 gwOneIssue "merge" ["K1"] = .ok [virtualTop [issueK1]] ∧
    (virtualTop [issueK1]).Key ≠ "" := by
  constructor
  · have hjql : keysJQL ["K1"] = "key in (K1)" := rfl
    simp [collect, GetIssuesByKeys, getIssuesByJQL, hjql, gwOneIssue, jK1,
      newIssueFromJsonIssue, fetchStatusUpdate, fetchComments, fetchChildren,
      buildList, fetchStatusUpdateLoop, parseComments, virtualTop, issueK1]
  · decide

/-- C5 (amended): under `merge` with at least one top-level issue, `collect`
emits exactly one virtual root whose key is the string `"virtual"` (not the
empty string), whose children are the built top-level nodes in (serialized)
query order; `Embedder` treats it as an embedder through its nonempty
children rather than through the empty-key sentinel. -/
theorem C5_merge_virtual_root (fuel : Nat) (g : Gateway) (keys : List String)
    (js : List jsonIssue) (tis : List Issue) (hk : keys.length ≠ 0)
    (hs : g.search (keysJQL keys) = .ok js)
    (hb : buildList fuel g js = .ok tis) :
    collect fuel g "merge" keys = .ok [virtualTop tis] ∧
    (virtualTop tis).Key = "virtual" ∧
    (tis ≠ [] → (virtualTop tis).Embedder = true) := by
  refine ⟨collect_merge_keys fuel g keys js tis hk hs hb, rfl, ?_⟩
  intro hne
  simp [virtualTop, Issue.Embedder, Issue.Key, Issue.Children,
    List.length_pos, hne]

/-- C5 (witness): the amended theorem at a concrete gateway returning one
top-level issue for the explicit key `K1`. -/
theorem C5_witness :
    (["K1"] : List String).length ≠ 0 ∧
    gwOneIssue.search (keysJQL ["K1"]) = .ok [jK1] ∧
    buildList 1 gwOneIssue [jK1] = .ok [issueK1] ∧
    (collect 1 gwOneIssue "merge" ["K1"] = .ok [virtualTop [issueK1]] ∧
      (virtualTop [issueK1]).Key = "virtual" ∧
      ([issueK1] ≠ ([] : List Issue) → (virtualTop [issueK1]).Embedder = true)) := by
  have hb : buildList 1 gwOneIssue [jK1] = .ok [issueK1] := by
    simp [buildList, newIssueFromJsonIssue, gwOneIssue, jK1, fetchStatusUpdate,
      fetchComments, fetchChildren, fetchStatusUpdateLoop, parseComments, issueK1]
  exact ⟨by decide, rfl, hb,
    C5_merge_virtual_root 1 gwOneIssue ["K1"] [jK1] [issueK1] (by decide) rfl hb⟩

/-- C6: `KeptRecentEvents` keeps a node iff it has self-activity (created
strictly after the cutoff, status change strictly after the cutoff, or a
comment not before the cutoff) or at least one kept child; and every node of
a kept filtered tree has self-activity or a (present) nonempty children
list. -/
theorem C6_keep_iff_and_invariant (t : Int) (i : Issue) :
    ((i.KeptRecentEvents t).2 =
      (specSelfActivity i t || i.Children.any fun c => (c.KeptRecentEvents t).2)) ∧
    ((i.KeptRecentEvents t).2 = true →
      Issue.allNodes (fun n => specSelfActivity n t || !n.Children.isEmpty)
        ((i.KeptRecentEvents t).1) = true) :=
  ⟨kept_snd i t, kept_allNodes t i⟩

/-- C6 (witness): the theorem at a concrete recently created issue. -/
theorem C6_witness :
    ((issueRecent.KeptRecentEvents 4).2 =
      (specSelfActivity issueRecent 4 ||
        issueRecent.Children.any fun c => (c.KeptRecentEvents 4).2)) ∧
    Issue.allNodes (fun n => specSelfActivity n 4 || !n.Children.isEmpty)
      ((issueRecent.KeptRecentEvents 4).1) = true :=
  ⟨(C6_keep_iff_and_invariant 4 issueRecent).1,
   (C6_keep_iff_and_invariant 4 issueRecent).2 rfl⟩

/-- C7: filtering is idempotent — applying `KeptRecentEvents` to the result
of a first application with the same cutoff returns the same node and the
same keep flag. -/
theorem C7_filter_idempotent (t : Int) (i : Issue) :
    ((i.KeptRecentEvents t).1).KeptRecentEvents t = i.KeptRecentEvents t :=
  kept_idem t i

/-- C8: the comment cutoff is an inclusive lower bound — `KeptRecentEvents`
retains exactly the comments whose `When` is not before the cutoff, so a
comment exactly at the cutoff is kept and one strictly before is dropped. -/
theorem C8_comment_cutoff_inclusive (i : Issue) (t : Int) :
    ((i.KeptRecentEvents t).1).Comments =
      i.Comments.filter fun c => decide (t ≤ c.When) := by
  rw [kept_Comments]
  refine List.filter_congr ?_
  intro c _
  exact decide_not_lt c.When t

/-- C9: order preservation — the children key sequence after the recency
filter is a subsequence of the one before it, and a built node's children
key sequence equals the gateway's `parent = KEY` query result order
(`fetchChildren`, issues.go:354-361). -/
theorem C9_order_preservation (t : Int) (fuel : Nat) (g : Gateway)
    (j : jsonIssue) (i : Issue) (js : List jsonIssue) :
    List.Sublist (((i.KeptRecentEvents t).1).Children.map Issue.Key)
      (i.Children.map Issue.Key) ∧
    (newIssueFromJsonIssue fuel g j = .ok i →
      g.search ("parent = " ++ j.Key) = .ok js →
      i.Children.map Issue.Key = js.map jsonIssue.Key) :=
  ⟨kept_children_key_sublist i t,
   fun hb hs => newIssue_children_keys fuel g j i js hb hs⟩

/-- C9 (witness): the theorem at a concrete parent with one child. -/
theorem C9_witness :
    newIssueFromJsonIssue 2 gwParent jParent = .ok issueParent ∧
    gwParent.search ("parent = " ++ jParent.Key) = .ok [jChild] ∧
    List.Sublist (((issueParent.KeptRecentEvents 0).1).Children.map Issue.Key)
      (issueParent.Children.map Issue.Key) ∧
    issueParent.Children.map Issue.Key = [jChild].map jsonIssue.Key := by
  have hb : newIssueFromJsonIssue 2 gwParent jParent = .ok issueParent := by
    simp [newIssueFromJsonIssue, gwParent, jParent, jChild, fetchStatusUpdate,
      fetchComments, fetchChildren, buildList, fetchStatusUpdateLoop,
      parseComments, issueParent, issueChild]
  exact ⟨hb, rfl,
    (C9_order_preservation 0 2 gwParent jParent issueParent [jChild]).1,
    (C9_order_preservation 0 2 gwParent jParent issueParent [jChild]).2 hb rfl⟩

/-- C10: a top-level issue that is an embedder (empty key or with children)
has its comments cleared by `filterEvents` (actions.go:50-53) before the
recency filter runs: its result is independent of its own comments, and any
surviving node has an empty comment list — so its own comments neither
count as self-activity nor reach the renderer, which prints comments only
from a node's `Comments` field. -/
theorem C10_embedder_comments_stripped (i : Issue) (t : Int)
    (cs : List Comment) (h : i.Embedder = true) :
    filterEvents [i] t = filterEvents [i.setComments cs] t ∧
    ∀ j ∈ filterEvents [i] t, j.Comments = [] := by
  have h2 : (i.setComments cs).Embedder = true := by
    rw [Embedder_setComments]; exact h
  have hset : (i.setComments cs).setComments [] = i.setComments [] :=
    setComments_setComments i cs []
  constructor
  · simp only [filterEvents, h, h2, if_true, hset]
  · intro j hj
    simp only [filterEvents, h, if_true] at hj
    rcases hk : ((i.setComments []).KeptRecentEvents t).2 with _ | _
    · rw [hk] at hj; simp at hj
    · rw [hk] at hj
      simp only [if_true, List.mem_singleton] at hj
      subst hj
      rw [kept_Comments, setComments_Comments]
      rfl

/-- C10 (witness): the theorem at a concrete virtual (empty-key) top issue
carrying a recent comment. -/
theorem C10_witness :
    embedIssue.Embedder = true ∧
    filterEvents [embedIssue] 0 = filterEvents [embedIssue.setComments altComments] 0 ∧
    embedResult.Comments = [] :=
  ⟨rfl, (C10_embedder_comments_stripped embedIssue 0 altComments rfl).1,
   (C10_embedder_comments_stripped embedIssue 0 altComments rfl).2 embedResult
     (by rw [show filterEvents [embedIssue] 0 = [embedResult] from rfl]
         exact List.mem_singleton.mpr rfl)⟩

end Claims
